import Mathlib

/-!
Shallow embedding of the ETL ("Result Flattener") core of
`scripts/generate-charts.py`: loading of raw JSON result documents
(`load_test_results`), the summary table (`results_to_dataframe`,
`generate_summary_table`), the time-series table
(`extract_timeseries_data`) and the per-container table
(`extract_per_container_data`).

Modelling conventions:
* a JSON document is modelled structurally: every optional object or
  scalar of the schema is an `Option` field, so that the Python idiom
  `r.get('metrics', {}).get('throughput', {}).get('bytes_per_second', 0)`
  becomes `((r.metrics.bind Metrics.throughput).bind
  Throughput.bytes_per_second).getD 0`;
* Python floats are modelled as `ℚ` (exact arithmetic), epoch-second
  timestamps as `ℤ`;
* `datetime.fromtimestamp ts` is modelled by the epoch value `ts` itself
  (an injective renaming that none of the flattening logic inspects);
* a Python dict built by the comprehension
  `{item['timestamp']: item['value'] for item in l}` maps a key to the
  LAST value listed for it; its key set is the set of distinct
  timestamps.  `dget` and `dkeys` below implement exactly that;
* `pandas.DataFrame.sort_values` on a LIST of columns is `np.lexsort`,
  a stable sort: it is embedded as the stable insertion sort `sortLe`.
  On a SINGLE column the pandas default is `kind='quicksort'`
  (numpy introsort), which is documented as unstable; it is therefore
  embedded relationally by `sortValuesContract` (any ascending
  reordering), with `sortLe` one particular refinement of it.
-/

namespace GenCharts

/-- One `{"timestamp": ..., "value": ...}` sample of a metric series. -/
structure TSPoint where
  timestamp : Int
  value : ℚ
deriving DecidableEq

/-- The `metrics.throughput` block. -/
structure Throughput where
  bytes_per_second : Option ℚ
  spans_per_second : Option ℚ
deriving DecidableEq

/-- The `metrics.query_latencies` block. -/
structure QueryLatencies where
  p50_seconds : Option ℚ
  p90_seconds : Option ℚ
  p99_seconds : Option ℚ
  avg_seconds : Option ℚ
deriving DecidableEq

/-- The `metrics.resources` block. -/
structure Resources where
  avg_cpu_cores : Option ℚ
  max_cpu_cores : Option ℚ
  min_cpu_cores : Option ℚ
  sustained_cpu_cores : Option ℚ
  avg_memory_gb : Option ℚ
  max_memory_gb : Option ℚ
  min_memory_gb : Option ℚ
  peak_memory_gb : Option ℚ
deriving DecidableEq

/-- The `metrics.resource_recommendations` block. -/
structure ResourceRecommendations where
  cpu_cores : Option ℚ
  memory_gb : Option ℚ
deriving DecidableEq

/-- The `metrics.errors` block. -/
structure Errors where
  error_rate_percent : Option ℚ
  dropped_spans_per_second : Option ℚ
  discarded_spans_per_second : Option ℚ
deriving DecidableEq

/-- The `metrics.query_results` block. -/
structure QueryResults where
  actual_qps : Option ℚ
  avg_spans_returned : Option ℚ
deriving DecidableEq

/-- The `metrics` block of a raw result document. -/
structure Metrics where
  throughput : Option Throughput
  resources : Option Resources
  resource_recommendations : Option ResourceRecommendations
  query_latencies : Option QueryLatencies
  errors : Option Errors
  query_results : Option QueryResults
deriving DecidableEq

/-- The `config` block of a raw result document. -/
structure Config where
  mb_per_sec : Option ℚ
  target_qps : Option ℚ
deriving DecidableEq

/-- The `timeseries` block: one list of samples per metric name. -/
structure Timeseries where
  cpu_cores : List TSPoint
  memory_gb : List TSPoint
  spans_per_second : List TSPoint
  bytes_per_second : List TSPoint
  p50_latency_seconds : List TSPoint
  p90_latency_seconds : List TSPoint
  p99_latency_seconds : List TSPoint
  query_failures_per_second : List TSPoint
  dropped_spans_per_second : List TSPoint
  discarded_spans_per_second : List TSPoint
  avg_spans_returned : List TSPoint
  qps : List TSPoint
deriving DecidableEq

/-- One entry of `per_container.cpu_cores` / `per_container.memory_gb`:
a `{"container": ..., "pod": ..., "values": [...]}` record. -/
structure ContainerSeries where
  container : Option String
  pod : Option String
  values : List TSPoint
deriving DecidableEq

/-- The `per_container` block. -/
structure PerContainer where
  cpu_cores : List ContainerSeries
  memory_gb : List ContainerSeries
deriving DecidableEq

/-- One raw JSON test-result document. -/
structure TestResult where
  load_name : Option String
  config : Option Config
  metrics : Option Metrics
  timeseries : Option Timeseries
  per_container : Option PerContainer
deriving DecidableEq

/-- One row of the summary table (the dict built per document in
`results_to_dataframe`, lines 160-193 of the script). -/
structure SummaryRow where
  load_name : String
  mb_per_sec : ℚ
  mb_per_sec_actual : ℚ
  gb_per_day : ℚ
  bytes_per_sec : ℚ
  p50_ms : ℚ
  p90_ms : ℚ
  p99_ms : ℚ
  avg_latency_ms : ℚ
  cpu_cores : ℚ
  cpu_millicores : ℚ
  max_cpu_cores : ℚ
  max_cpu_millicores : ℚ
  min_cpu_cores : ℚ
  min_cpu_millicores : ℚ
  avg_memory_gb : ℚ
  memory_gb : ℚ
  max_memory_gb : ℚ
  min_memory_gb : ℚ
  sustained_cpu : ℚ
  sustained_cpu_millicores : ℚ
  peak_memory_gb : ℚ
  recommended_cpu : ℚ
  recommended_cpu_millicores : ℚ
  recommended_memory_gb : ℚ
  spans_per_sec : ℚ
  error_rate : ℚ
  dropped_spans : ℚ
  discarded_spans : ℚ
  avg_spans_returned : ℚ
  actual_qps : ℚ
  target_qps : ℚ
deriving DecidableEq

/-- Flattening of one document into its summary row
(`results_to_dataframe`, loop body lines 134-194). -/
def mkSummaryRow (r : TestResult) : SummaryRow :=
  let bytes_per_sec : ℚ :=
    ((r.metrics.bind Metrics.throughput).bind Throughput.bytes_per_second).getD 0
  let mb_per_sec_actual : ℚ :=
    if bytes_per_sec ≠ 0 then bytes_per_sec / (1024 * 1024) else 0
  let resources := r.metrics.bind Metrics.resources
  let cpu_cores := (resources.bind Resources.avg_cpu_cores).getD 0
  let max_cpu_cores := (resources.bind Resources.max_cpu_cores).getD 0
  let min_cpu_cores := (resources.bind Resources.min_cpu_cores).getD 0
  let sustained_cpu_cores := (resources.bind Resources.sustained_cpu_cores).getD 0
  let recommended_cpu_cores :=
    ((r.metrics.bind Metrics.resource_recommendations).bind
      ResourceRecommendations.cpu_cores).getD 0
  let avg_memory_gb := (resources.bind Resources.avg_memory_gb).getD 0
  let max_memory_gb := (resources.bind Resources.max_memory_gb).getD 0
  let min_memory_gb := (resources.bind Resources.min_memory_gb).getD 0
  let gb_per_day : ℚ :=
    if mb_per_sec_actual ≠ 0 then mb_per_sec_actual * 86400 / 1024 else 0
  let actual_qps :=
    ((r.metrics.bind Metrics.query_results).bind QueryResults.actual_qps).getD 0
  let target_qps := (r.config.bind Config.target_qps).getD 0
  let latencies := r.metrics.bind Metrics.query_latencies
  { load_name := r.load_name.getD "unknown"
    mb_per_sec := (r.config.bind Config.mb_per_sec).getD 0
    mb_per_sec_actual := mb_per_sec_actual
    gb_per_day := gb_per_day
    bytes_per_sec := bytes_per_sec
    p50_ms := (latencies.bind QueryLatencies.p50_seconds).getD 0 * 1000
    p90_ms := (latencies.bind QueryLatencies.p90_seconds).getD 0 * 1000
    p99_ms := (latencies.bind QueryLatencies.p99_seconds).getD 0 * 1000
    avg_latency_ms := (latencies.bind QueryLatencies.avg_seconds).getD 0 * 1000
    cpu_cores := cpu_cores
    cpu_millicores := cpu_cores * 1000
    max_cpu_cores := max_cpu_cores
    max_cpu_millicores := max_cpu_cores * 1000
    min_cpu_cores := min_cpu_cores
    min_cpu_millicores := min_cpu_cores * 1000
    avg_memory_gb := avg_memory_gb
    memory_gb := max_memory_gb
    max_memory_gb := max_memory_gb
    min_memory_gb := min_memory_gb
    sustained_cpu := sustained_cpu_cores
    sustained_cpu_millicores := sustained_cpu_cores * 1000
    peak_memory_gb :=
      ((r.metrics.bind Metrics.resources).bind Resources.peak_memory_gb).getD 0
    recommended_cpu := recommended_cpu_cores
    recommended_cpu_millicores := recommended_cpu_cores * 1000
    recommended_memory_gb :=
      ((r.metrics.bind Metrics.resource_recommendations).bind
        ResourceRecommendations.memory_gb).getD 0
    spans_per_sec :=
      ((r.metrics.bind Metrics.throughput).bind Throughput.spans_per_second).getD 0
    error_rate :=
      ((r.metrics.bind Metrics.errors).bind Errors.error_rate_percent).getD 0
    dropped_spans :=
      ((r.metrics.bind Metrics.errors).bind Errors.dropped_spans_per_second).getD 0
    discarded_spans :=
      ((r.metrics.bind Metrics.errors).bind Errors.discarded_spans_per_second).getD 0
    avg_spans_returned :=
      ((r.metrics.bind Metrics.query_results).bind QueryResults.avg_spans_returned).getD 0
    actual_qps := actual_qps
    target_qps := target_qps }

/-- The unsorted row list of `results_to_dataframe` (one row per document,
in input order). -/
def summaryRows (results : List TestResult) : List SummaryRow :=
  results.map mkSummaryRow

/-! ### Generic stable sorting (model of `np.lexsort`, the stable
multi-column path of `pandas.DataFrame.sort_values`). -/

/-- Insert `x` into `l` in front of the first element `y` with
`le x y`; equal keys therefore keep the earlier element first. -/
def insertLe (le : α → α → Bool) (x : α) : List α → List α
  | [] => [x]
  | y :: ys => if le x y then x :: y :: ys else y :: insertLe le x ys

/-- Stable insertion sort by the boolean comparison `le`. -/
def sortLe (le : α → α → Bool) : List α → List α
  | [] => []
  | x :: xs => insertLe le x (sortLe le xs)


/-! ### Python dict built from a sample list
(`{item['timestamp']: item['value'] for item in l}`). -/

/-- `dget l ts` is `d.get(ts, 0)` on the dict built from `l`: the value
of the last sample at timestamp `ts`, or `0` when absent. -/
def dget (l : List TSPoint) (ts : Int) : ℚ :=
  match l.reverse.find? (fun p => p.timestamp = ts) with
  | some p => p.value
  | none => 0

/-- Whether the dict built from `l` has key `ts`. -/
def dhas (l : List TSPoint) (ts : Int) : Bool :=
  l.any (fun p => p.timestamp = ts)

/-- `sorted(d.keys())` on the dict built from `l`: the distinct
timestamps of `l` in ascending order. -/
def dkeys (l : List TSPoint) : List Int :=
  sortLe (fun a b => a ≤ b) (l.map TSPoint.timestamp).dedup


/-! ### Group minima (`df.loc[mask, 'timestamp'].min()`). -/

/-- Minimum of a list of integers (`0` on the empty list, which the
script never queries). -/
def minList : List Int → Int
  | [] => 0
  | x :: xs => xs.foldl min x


/-! ### The summary table (`results_to_dataframe`). -/

/-- Row comparison used by `df.sort_values('mb_per_sec')`. -/
def summaryLe (a b : SummaryRow) : Bool := decide (a.mb_per_sec ≤ b.mb_per_sec)

/-- What `df.sort_values(col)` with the pandas default `kind='quicksort'`
(numpy introsort) guarantees about its output: a reordering of the rows
that is ascending in the sort key.  numpy documents this kind as NOT
stable, so the tie order is not part of the contract. -/
def sortValuesContract (le : α → α → Bool) (input output : List α) : Prop :=
  List.Perm input output ∧ output.Pairwise (fun a b => le a b = true)

/-- `results_to_dataframe` (lines 131-199): one row per document, then
`df.sort_values('mb_per_sec').reset_index(drop=True)`.  The executable
model uses the stable `sortLe`, one refinement of `sortValuesContract`. -/
def results_to_dataframe (results : List TestResult) : List SummaryRow :=
  sortLe summaryLe (summaryRows results)

/-! ### The time-series table (`extract_timeseries_data`). -/

/-- One row of the time-series table (the dict appended per CPU
timestamp, lines 234-252).  `datetime` models
`datetime.fromtimestamp(ts)` by `ts` itself. -/
structure TSRow where
  load_name : String
  timestamp : Int
  datetime : Int
  cpu_cores : ℚ
  cpu_millicores : ℚ
  memory_gb : ℚ
  spans_per_sec : ℚ
  bytes_per_sec : ℚ
  p50_ms : ℚ
  p90_ms : ℚ
  p99_ms : ℚ
  query_failures : ℚ
  dropped_spans : ℚ
  discarded_spans : ℚ
  avg_spans_returned : ℚ
  qps : ℚ
  target_qps : ℚ
deriving DecidableEq

/-- The row appended for one CPU-axis timestamp `ts` (loop body,
lines 232-252). -/
def tsRowAt (load_name : String) (target_qps : ℚ) (t : Timeseries) (ts : Int) : TSRow :=
  { load_name := load_name
    timestamp := ts
    datetime := ts
    cpu_cores := dget t.cpu_cores ts
    cpu_millicores := dget t.cpu_cores ts * 1000
    memory_gb := dget t.memory_gb ts
    spans_per_sec := dget t.spans_per_second ts
    bytes_per_sec := dget t.bytes_per_second ts
    p50_ms := dget t.p50_latency_seconds ts * 1000
    p90_ms := dget t.p90_latency_seconds ts * 1000
    p99_ms := dget t.p99_latency_seconds ts * 1000
    query_failures := dget t.query_failures_per_second ts
    dropped_spans := dget t.dropped_spans_per_second ts
    discarded_spans := dget t.discarded_spans_per_second ts
    avg_spans_returned := dget t.avg_spans_returned ts
    qps := dget t.qps ts
    target_qps := target_qps }

/-- Rows contributed by one document (lines 206-252).  The Python guard
`if not timeseries or not timeseries.get('cpu_cores'): continue` skips a
document whose `timeseries` key is absent or falsy (the `none` case
here) or whose `cpu_cores` series is missing or empty (the `[]` case). -/
def tsDocRows (r : TestResult) : List TSRow :=
  match r.timeseries with
  | none => []
  | some t =>
    if t.cpu_cores = [] then []
    else
      (dkeys t.cpu_cores).map
        (tsRowAt (r.load_name.getD "unknown") ((r.config.bind Config.target_qps).getD 0) t)

/-- Row comparison of `df.sort_values(['load_name', 'timestamp'])`
(multi-column, hence `np.lexsort`, a stable sort). -/
def tsLe (a b : TSRow) : Bool :=
  decide (a.load_name < b.load_name ∨
    (a.load_name = b.load_name ∧ a.timestamp ≤ b.timestamp))

/-- A time-series row together with the derived `minute` column. -/
structure TSRowM extends TSRow where
  minute : Int
deriving DecidableEq

/-- `df.loc[mask, 'timestamp'].min()` for the rows of one load. -/
def minTsLoad (rows : List TSRow) (load : String) : Int :=
  minList ((rows.filter (fun x => decide (x.load_name = load))).map TSRow.timestamp)

/-- The per-load `minute` column (lines 261-264):
`((timestamp - min_ts) / 60).astype(int) + 1`; the timestamps are at
least the group minimum, so truncation toward zero agrees with `Int`
division. -/
def addMinute (rows : List TSRow) : List TSRowM :=
  rows.map (fun row =>
    { toTSRow := row
      minute := (row.timestamp - minTsLoad rows row.load_name) / 60 + 1 })

/-- `extract_timeseries_data` (lines 202-266). -/
def extract_timeseries_data (results : List TestResult) : List TSRowM :=
  addMinute (sortLe tsLe (results.flatMap tsDocRows))

/-! ### The per-container table (`extract_per_container_data`). -/

/-- One row of the per-container table (the dict entry initialised at
lines 1140-1149 / 1164-1173). -/
structure ContainerRow where
  load_name : String
  container : String
  pod : String
  timestamp : Int
  datetime : Int
  cpu_cores : ℚ
  cpu_millicores : ℚ
  memory_gb : ℚ
deriving DecidableEq

/-- The `(load, container, pod, timestamp)` key of `data_dict`. -/
abbrev PCKey := String × String × String × Int

/-- The all-zero entry a key is initialised with on first sight. -/
def initEntry (load cn pn : String) (ts : Int) : ContainerRow :=
  { load_name := load, container := cn, pod := pn, timestamp := ts
    datetime := ts, cpu_cores := 0, cpu_millicores := 0, memory_gb := 0 }

/-- `if key not in data_dict: data_dict[key] = init` followed by an
in-place field update, on an insertion-ordered association list (the
model of a Python dict). -/
def updEntry (k : PCKey) (init : ContainerRow) (f : ContainerRow → ContainerRow) :
    List (PCKey × ContainerRow) → List (PCKey × ContainerRow)
  | [] => [(k, f init)]
  | (k', e) :: rest =>
    if k' = k then (k', f e) :: rest else (k', e) :: updEntry k init f rest

/-- Linearisation of the two nested loops `for container_info in series:
for item in container_info['values']:` into the visited
`(container, pod, item)` triples, in visiting order. -/
def seriesItems (series : List ContainerSeries) : List (String × String × TSPoint) :=
  series.flatMap (fun ci =>
    ci.values.map (fun it => (ci.container.getD "unknown", ci.pod.getD "unknown", it)))

/-- One iteration of the CPU pass (lines 1135-1151). -/
def cpuStep (load : String) (d : List (PCKey × ContainerRow))
    (x : String × String × TSPoint) : List (PCKey × ContainerRow) :=
  updEntry (load, x.1, x.2.1, x.2.2.timestamp) (initEntry load x.1 x.2.1 x.2.2.timestamp)
    (fun e => { e with cpu_cores := x.2.2.value, cpu_millicores := x.2.2.value * 1000 }) d

/-- One iteration of the memory pass (lines 1159-1174). -/
def memStep (load : String) (d : List (PCKey × ContainerRow))
    (x : String × String × TSPoint) : List (PCKey × ContainerRow) :=
  updEntry (load, x.1, x.2.1, x.2.2.timestamp) (initEntry load x.1 x.2.1 x.2.2.timestamp)
    (fun e => { e with memory_gb := x.2.2.value }) d

/-- `data_dict` after the CPU pass of one document. -/
def cpuDict (r : TestResult) (pc : PerContainer) : List (PCKey × ContainerRow) :=
  (seriesItems pc.cpu_cores).foldl (cpuStep (r.load_name.getD "unknown")) []

/-- `data_dict` after both passes of one document. -/
def pcDict (r : TestResult) (pc : PerContainer) : List (PCKey × ContainerRow) :=
  (seriesItems pc.memory_gb).foldl (memStep (r.load_name.getD "unknown")) (cpuDict r pc)

/-- `rows.extend(data_dict.values())` for one document; the Python guard
`if not per_container: continue` is the `none` case (a present-but-empty
`per_container` dict is also falsy in Python, and likewise contributes
no rows here since both series are then empty). -/
def pcDocRows (r : TestResult) : List ContainerRow :=
  match r.per_container with
  | none => []
  | some pc => (pcDict r pc).map Prod.snd

/-- Row comparison of
`df.sort_values(['load_name', 'container', 'timestamp'])`. -/
def pcLe (a b : ContainerRow) : Bool :=
  decide (a.load_name < b.load_name ∨
    (a.load_name = b.load_name ∧ (a.container < b.container ∨
      (a.container = b.container ∧ a.timestamp ≤ b.timestamp))))

/-- A per-container row together with the derived `minute` column. -/
structure ContainerRowM extends ContainerRow where
  minute : Int
deriving DecidableEq

/-- `df.loc[mask, 'timestamp'].min()` for one `(load, container)` group. -/
def minTsLC (rows : List ContainerRow) (load cn : String) : Int :=
  minList ((rows.filter
    (fun x => decide (x.load_name = load ∧ x.container = cn))).map ContainerRow.timestamp)

/-- The per-`(load, container)` `minute` column (lines 1186-1191). -/
def addMinutePC (rows : List ContainerRow) : List ContainerRowM :=
  rows.map (fun row =>
    { toContainerRow := row
      minute := (row.timestamp - minTsLC rows row.load_name row.container) / 60 + 1 })

/-- `extract_per_container_data` (lines 1111-1193). -/
def extract_per_container_data (results : List TestResult) : List ContainerRowM :=
  addMinutePC (sortLe pcLe (results.flatMap pcDocRows))

/-! ### Loading (`load_test_results`, lines 102-128). -/

/-- One file of the `raw/` directory: its name and the outcome of
`json.load` (`none` models a `json.JSONDecodeError`). -/
structure RawFile where
  name : String
  parsed : Option TestResult

/-- `load_test_results`: `fnmatchFn` abstracts `fnmatch.fnmatch`,
`fileFilter` is the global `FILE_FILTER` (`""` when unset, which is
falsy in Python so no filtering happens), `rawDirExists` whether
`results_dir / 'raw'` exists, and `files` the `sorted(raw_dir.glob)`
listing.  `Except.error` models `sys.exit(1)` (a non-zero exit). -/
def load_test_results (fnmatchFn : String → String → Bool) (fileFilter : String)
    (rawDirExists : Bool) (files : List RawFile) : Except String (List TestResult) :=
  if rawDirExists = false then
    Except.error "Error: Raw results directory not found"
  else
    let kept := files.filter
      (fun f => decide (fileFilter = "") || fnmatchFn f.name fileFilter)
    let results := kept.filterMap RawFile.parsed
    if results = [] then
      Except.error (if fileFilter = "" then "Error: No valid JSON files found"
        else "Error: No valid JSON files found matching filter")
    else
      Except.ok results

/-- The warnings printed by `load_test_results`: one per file that
passed the filter but failed to parse. -/
def parseWarnings (fnmatchFn : String → String → Bool) (fileFilter : String)
    (files : List RawFile) : List String :=
  ((files.filter (fun f => decide (fileFilter = "") || fnmatchFn f.name fileFilter)).filter
    (fun f => f.parsed.isNone)).map RawFile.name

/-! ### Derived columns of `generate_summary_table`
(lines 1675-1685) and their rendering (lines 1794-1802). -/

/-- `Series.round(1)`: rounding to one decimal place.  numpy rounds
halves to even on binary floats; on `ℚ` this model rounds halves up,
which agrees everywhere except at exact odd multiples of `1/20` - a
difference inside the floating-point tolerance the claims allow. -/
def round1 (q : ℚ) : ℚ := ((round (q * 10) : ℤ) : ℚ) / 10

/-- The `efficiency` column (lines 1676-1679). -/
def efficiencyCol (row : SummaryRow) : ℚ :=
  round1 (if row.mb_per_sec > 0 then row.mb_per_sec_actual / row.mb_per_sec * 100 else 0)

/-- The `qps_efficiency` column (lines 1682-1685). -/
def qps_efficiencyCol (row : SummaryRow) : ℚ :=
  round1 (if row.target_qps > 0 then row.actual_qps / row.target_qps * 100 else 0)

/-- The CSS class of the rendered `Efficiency` cell (line 1795). -/
def effClass (row : SummaryRow) : String :=
  if efficiencyCol row ≥ 90 then "metric-good"
  else if efficiencyCol row ≥ 70 then "metric-warn"
  else "metric-bad"

/-- The CSS class put on the rendered `Actual QPS` cell
(lines 1797-1799): initialised to `''` and only given a colour when
`target_qps > 0`.  The `qps_efficiency` value itself is never rendered
as a cell of the report. -/
def qpsEffClass (row : SummaryRow) : String :=
  if row.target_qps > 0 then
    (if qps_efficiencyCol row ≥ 90 then "metric-good"
     else if qps_efficiencyCol row ≥ 70 then "metric-warn"
     else "metric-bad")
  else ""

/-- The rendered `Target QPS` cell (line 1802): a number formatted by
`fmt1` (`'{:.1f}'.format`) when positive, `'N/A'` otherwise. -/
def targetQpsStr (fmt1 : ℚ → String) (row : SummaryRow) : String :=
  if row.target_qps > 0 then fmt1 row.target_qps else "N/A"

/-! ### Specification-side vocabulary used to state the claims. -/

/-- `data_dict[k]` as an `Option`: the value at the first (and, keys
being unique, only) occurrence of `k`. -/
def lookupD (d : List (PCKey × ContainerRow)) (k : PCKey) : Option ContainerRow :=
  (d.find? (fun p => decide (p.1 = k))).map Prod.snd

/-- The entry a key `k` is initialised with. -/
def initK (k : PCKey) : ContainerRow := initEntry k.1 k.2.1 k.2.2.1 k.2.2.2

/-- The generic shape of one pass iteration: both `cpuStep` and
`memStep` are `stepOf` of a field update `g`. -/
def stepOf (g : ℚ → ContainerRow → ContainerRow) (load : String)
    (d : List (PCKey × ContainerRow)) (x : String × String × TSPoint) :
    List (PCKey × ContainerRow) :=
  updEntry (load, x.1, x.2.1, x.2.2.timestamp) (initEntry load x.1 x.2.1 x.2.2.timestamp)
    (g x.2.2.value) d

/-- The field update of the CPU pass. -/
def gCpu (v : ℚ) (e : ContainerRow) : ContainerRow :=
  { e with cpu_cores := v, cpu_millicores := v * 1000 }

/-- The field update of the memory pass. -/
def gMem (v : ℚ) (e : ContainerRow) : ContainerRow :=
  { e with memory_gb := v }

/-- The value the LAST visited sample of a pass writes for key `k`
(`none` when the pass never touches `k`). -/
def lastVal (load : String) (items : List (String × String × TSPoint)) (k : PCKey) :
    Option ℚ :=
  (items.reverse.find?
    (fun x => decide (((load, x.1, x.2.1, x.2.2.timestamp) : PCKey) = k))).map
    (fun x => x.2.2.value)

/-- The key of a per-container row. -/
def rowKey (e : ContainerRow) : PCKey := (e.load_name, e.container, e.pod, e.timestamp)

/-- The minimum timestamp among the rows of the finished time-series
table that carry the given load name. -/
def groupMinTs (table : List TSRowM) (load : String) : Int :=
  minList ((table.filter (fun x => decide (x.load_name = load))).map
    (fun x => x.timestamp))

/-- The minimum timestamp among the rows of the finished per-container
table that carry the given load and container names. -/
def groupMinTsLC (table : List ContainerRowM) (load cn : String) : Int :=
  minList ((table.filter (fun x => decide (x.load_name = load ∧ x.container = cn))).map
    (fun x => x.timestamp))

/-- The load name a document contributes its rows under. -/
def loadNameOf (r : TestResult) : String := r.load_name.getD "unknown"

/-! ### Concrete example documents (used to evaluate the flatteners on
closed inputs). -/

/-- A small document: 10 MB/s target, 10 MB/s measured, no QPS target. -/
def docSmall : TestResult :=
  { load_name := some "small"
    config := some { mb_per_sec := some 10, target_qps := some 0 }
    metrics := some
      { throughput := some { bytes_per_second := some 10485760, spans_per_second := none }
        resources := none
        resource_recommendations := none
        query_latencies := none
        errors := none
        query_results := none }
    timeseries := none
    per_container := none }

/-- A large document with the same target throughput as `docSmall`
would need for a tie; here instead an equal-target twin of `docSmall`
under another name. -/
def docSmall2 : TestResult :=
  { load_name := some "small2"
    config := some { mb_per_sec := some 10, target_qps := some 0 }
    metrics := none
    timeseries := none
    per_container := none }

/-- A document whose configured targets are both zero. -/
def docZero : TestResult :=
  { load_name := some "z"
    config := some { mb_per_sec := some 0, target_qps := some 0 }
    metrics := none
    timeseries := none
    per_container := none }

/-- A third equal-target document with yet another name. -/
def docSmall3 : TestResult :=
  { load_name := some "small3"
    config := some { mb_per_sec := some 10, target_qps := some 0 }
    metrics := none
    timeseries := none
    per_container := none }

/-- A time-series block with CPU samples at timestamps 1000 and 1060
and no other series. -/
def tsBlockTS : Timeseries :=
  { cpu_cores := [⟨1000, 2⟩, ⟨1060, 3⟩]
    memory_gb := []
    spans_per_second := []
    bytes_per_second := []
    p50_latency_seconds := []
    p90_latency_seconds := []
    p99_latency_seconds := []
    query_failures_per_second := []
    dropped_spans_per_second := []
    discarded_spans_per_second := []
    avg_spans_returned := []
    qps := [] }

/-- A document with a CPU time-series at timestamps 1000 and 1060 and
no memory series. -/
def docTS : TestResult :=
  { load_name := some "ts"
    config := some { mb_per_sec := some 1, target_qps := some 3 }
    metrics := none
    timeseries := some tsBlockTS
    per_container := none }

/-- A per-container block: one CPU-only sample and one memory-only
sample for the same container and pod at different timestamps. -/
def pcBlockPC : PerContainer :=
  { cpu_cores := [⟨some "c", some "p", [⟨100, 4⟩]⟩]
    memory_gb := [⟨some "c", some "p", [⟨160, 7⟩]⟩] }

/-- A document with the per-container block `pcBlockPC`. -/
def docPC : TestResult :=
  { load_name := some "pc"
    config := none
    metrics := none
    timeseries := none
    per_container := some pcBlockPC }

/-- The files of `raw/` that pass the (possibly empty) filename filter. -/
def keptFiles (fnmatchFn : String → String → Bool) (fileFilter : String)
    (files : List RawFile) : List RawFile :=
  files.filter (fun f => decide (fileFilter = "") || fnmatchFn f.name fileFilter)

/-- The documents that passed the filter and parsed. -/
def validResults (fnmatchFn : String → String → Bool) (fileFilter : String)
    (files : List RawFile) : List TestResult :=
  (keptFiles fnmatchFn fileFilter files).filterMap RawFile.parsed

/-! ## Helper theorems -/

theorem insertLe_perm (le : α → α → Bool) (x : α) (l : List α) :
    List.Perm (insertLe le x l) (x :: l) := by
  induction l with
  | nil => simp [insertLe]
  | cons y ys ih =>
    simp only [insertLe]
    by_cases h : le x y = true
    · simp [h]
    · simp only [h, if_false]
      exact ((ih.cons y).trans (List.Perm.swap x y ys))

theorem sortLe_perm (le : α → α → Bool) (l : List α) :
    List.Perm (sortLe le l) l := by
  induction l with
  | nil => simp [sortLe]
  | cons x xs ih => exact (insertLe_perm le x (sortLe le xs)).trans (ih.cons x)

theorem mem_insertLe {le : α → α → Bool} {x z : α} {l : List α} :
    z ∈ insertLe le x l ↔ z = x ∨ z ∈ l := by
  rw [(insertLe_perm le x l).mem_iff, List.mem_cons]

theorem insertLe_pairwise {le : α → α → Bool}
    (htot : ∀ a b, le a b = true ∨ le b a = true)
    (htrans : ∀ a b c, le a b = true → le b c = true → le a c = true)
    (x : α) {l : List α} (hl : l.Pairwise (fun a b => le a b = true)) :
    (insertLe le x l).Pairwise (fun a b => le a b = true) := by
  induction l with
  | nil => simp [insertLe]
  | cons y ys ih =>
    rcases List.pairwise_cons.mp hl with ⟨hy, hys⟩
    simp only [insertLe]
    by_cases h : le x y = true
    · simp only [h, if_true]
      refine List.Pairwise.cons ?_ (List.pairwise_cons.mpr ⟨hy, hys⟩)
      intro z hz
      rcases List.mem_cons.mp hz with rfl | hz
      · exact h
      · exact htrans _ _ _ h (hy z hz)
    · simp only [h, if_false]
      refine List.Pairwise.cons ?_ (ih hys)
      intro z hz
      rcases mem_insertLe.mp hz with h2 | hz
      · rw [h2]
        rcases htot x y with h1 | h1
        · exact absurd h1 h
        · exact h1
      · exact hy z hz

theorem sortLe_pairwise {le : α → α → Bool}
    (htot : ∀ a b, le a b = true ∨ le b a = true)
    (htrans : ∀ a b c, le a b = true → le b c = true → le a c = true)
    (l : List α) :
    (sortLe le l).Pairwise (fun a b => le a b = true) := by
  induction l with
  | nil => simp [sortLe]
  | cons x xs ih => exact insertLe_pairwise htot htrans x ih

theorem dkeys_nodup (l : List TSPoint) : (dkeys l).Nodup :=
  ((sortLe_perm _ _).nodup_iff).mpr (l.map TSPoint.timestamp).nodup_dedup

theorem mem_dkeys {l : List TSPoint} {ts : Int} :
    ts ∈ dkeys l ↔ ts ∈ l.map TSPoint.timestamp := by
  unfold dkeys
  rw [(sortLe_perm _ _).mem_iff, List.mem_dedup]

theorem dkeys_sorted (l : List TSPoint) :
    (dkeys l).Pairwise (fun a b : Int => a ≤ b) := by
  have h : (dkeys l).Pairwise (fun a b : Int => decide (a ≤ b) = true) := by
    unfold dkeys
    apply sortLe_pairwise
    · intro a b
      rcases le_total a b with h | h <;> simp [h]
    · intro a b c h1 h2
      simp only [decide_eq_true_eq] at h1 h2 ⊢
      exact le_trans h1 h2
  exact h.imp (fun h2 => by simpa using h2)

/-- `dget` returns `0` for a timestamp absent from the series. -/

theorem dget_eq_zero_of_not_dhas {l : List TSPoint} {ts : Int}
    (h : dhas l ts = false) : dget l ts = 0 := by
  unfold dget
  have : l.reverse.find? (fun p => p.timestamp = ts) = none := by
    rw [List.find?_eq_none]
    intro p hp
    have hmem : p ∈ l := List.mem_reverse.mp hp
    simp only [dhas, List.any_eq_false] at h
    simpa using h p hmem
  rw [this]

theorem foldl_min_le_acc (xs : List Int) (acc : Int) : xs.foldl min acc ≤ acc := by
  induction xs generalizing acc with
  | nil => simp
  | cons y ys ih => exact le_trans (ih (min acc y)) (min_le_left acc y)

theorem foldl_min_le_mem {xs : List Int} {x : Int} (h : x ∈ xs) (acc : Int) :
    xs.foldl min acc ≤ x := by
  induction xs generalizing acc with
  | nil => cases h
  | cons y ys ih =>
    rcases List.mem_cons.mp h with rfl | h
    · exact le_trans (foldl_min_le_acc ys (min acc x)) (min_le_right acc x)
    · exact ih h (min acc y)

theorem minList_le {l : List Int} {x : Int} (h : x ∈ l) : minList l ≤ x := by
  cases l with
  | nil => cases h
  | cons y ys =>
    rcases List.mem_cons.mp h with rfl | h
    · exact foldl_min_le_acc ys x
    · exact foldl_min_le_mem h y

theorem foldl_min_acc_or_mem (xs : List Int) :
    ∀ acc : Int, xs.foldl min acc = acc ∨ xs.foldl min acc ∈ xs := by
  induction xs with
  | nil => intro acc; simp
  | cons z zs ih =>
    intro acc
    simp only [List.foldl_cons]
    rcases ih (min acc z) with h | h
    · rcases min_choice acc z with h1 | h1
      · exact Or.inl (h.trans h1)
      · exact Or.inr (by rw [h.trans h1]; exact List.mem_cons_self z zs)
    · exact Or.inr (List.mem_cons_of_mem z h)

theorem minList_mem {l : List Int} (h : l ≠ []) : minList l ∈ l := by
  cases l with
  | nil => exact absurd rfl h
  | cons y ys =>
    simp only [minList]
    rcases foldl_min_acc_or_mem ys y with h1 | h1
    · rw [h1]; exact List.mem_cons_self y ys
    · exact List.mem_cons_of_mem y h1

/-! ### Generic fold invariance. -/

theorem foldl_inv {β σ : Type _} (Inv : σ → Prop) {step : σ → β → σ}
    (hstep : ∀ d x, Inv d → Inv (step d x)) :
    ∀ (items : List β) (d : σ), Inv d → Inv (items.foldl step d) := by
  intro items
  induction items with
  | nil => intro d hd; exact hd
  | cons x xs ih => intro d hd; exact ih _ (hstep d x hd)

/-! ### The Python-dict model `updEntry` / `lookupD`. -/

theorem lookupD_nil (k : PCKey) : lookupD [] k = none := rfl

theorem lookupD_cons (p : PCKey × ContainerRow) (d : List (PCKey × ContainerRow))
    (k : PCKey) :
    lookupD (p :: d) k = if p.1 = k then some p.2 else lookupD d k := by
  by_cases h : p.1 = k
  · simp [lookupD, List.find?_cons_of_pos, h]
  · simp [lookupD, List.find?_cons_of_neg, h]

theorem lookupD_updEntry (k k' : PCKey) (init : ContainerRow)
    (f : ContainerRow → ContainerRow) (d : List (PCKey × ContainerRow)) :
    lookupD (updEntry k' init f d) k =
      if k = k' then some (f ((lookupD d k').getD init)) else lookupD d k := by
  induction d with
  | nil =>
    show lookupD [(k', f init)] k = _
    rw [lookupD_cons]
    by_cases h : k = k'
    · simp [h, lookupD_nil]
    · have h2 : ¬k' = k := fun hh => h hh.symm
      simp [h, h2, lookupD_nil]
  | cons p rest ih =>
    rcases p with ⟨kp, ep⟩
    simp only [updEntry]
    by_cases h1 : kp = k'
    · subst h1
      rw [if_pos rfl, lookupD_cons, lookupD_cons, lookupD_cons]
      by_cases h2 : k = kp
      · simp [h2]
      · have h3 : ¬kp = k := fun hh => h2 hh.symm
        simp [h2, h3]
    · rw [if_neg h1, lookupD_cons, ih, lookupD_cons, lookupD_cons]
      by_cases h2 : kp = k
      · have h3 : ¬k = k' := fun h4 => h1 (h2.trans h4)
        simp [h2, h3]
      · simp [h2, if_neg (fun h4 : kp = k' => h1 h4)]

theorem mem_keys_updEntry {k0 k : PCKey} {init : ContainerRow}
    {f : ContainerRow → ContainerRow} {d : List (PCKey × ContainerRow)} :
    k0 ∈ (updEntry k init f d).map Prod.fst ↔ k0 = k ∨ k0 ∈ d.map Prod.fst := by
  induction d with
  | nil => simp [updEntry]
  | cons p rest ih =>
    rcases p with ⟨kp, ep⟩
    simp only [updEntry]
    by_cases h1 : kp = k
    · subst h1
      rw [if_pos rfl]
      simp only [List.map_cons, List.mem_cons]
      tauto
    · rw [if_neg h1]
      simp only [List.map_cons, List.mem_cons, ih]
      tauto

theorem keys_nodup_updEntry {k : PCKey} {init : ContainerRow}
    {f : ContainerRow → ContainerRow} {d : List (PCKey × ContainerRow)}
    (h : (d.map Prod.fst).Nodup) :
    ((updEntry k init f d).map Prod.fst).Nodup := by
  induction d with
  | nil => simp [updEntry]
  | cons p rest ih =>
    rcases p with ⟨kp, ep⟩
    rcases List.nodup_cons.mp h with ⟨hk, hrest⟩
    simp only [updEntry]
    by_cases h1 : kp = k
    · subst h1
      simpa using List.nodup_cons.mpr ⟨hk, hrest⟩
    · simp only [if_neg h1, List.map_cons]
      refine List.nodup_cons.mpr ⟨?_, ih hrest⟩
      intro hmem
      rcases mem_keys_updEntry.mp hmem with h2 | h2
      · exact h1 h2
      · exact hk h2

theorem pairs_pred_updEntry {P : PCKey × ContainerRow → Prop} {k : PCKey}
    {init : ContainerRow} {f : ContainerRow → ContainerRow}
    {d : List (PCKey × ContainerRow)} (hd : ∀ p ∈ d, P p)
    (hstep : ∀ e, P (k, e) → P (k, f e)) (hnew : P (k, f init)) :
    ∀ p ∈ updEntry k init f d, P p := by
  induction d with
  | nil =>
    intro p hp
    rcases List.mem_singleton.mp hp with rfl
    exact hnew
  | cons q rest ih =>
    rcases q with ⟨kq, eq1⟩
    simp only [updEntry]
    by_cases h1 : kq = k
    · subst h1
      rw [if_pos rfl]
      intro p hp
      rcases List.mem_cons.mp hp with rfl | hp
      · exact hstep _ (hd _ (List.mem_cons_self _ _))
      · exact hd _ (List.mem_cons_of_mem _ hp)
    · rw [if_neg h1]
      intro p hp
      rcases List.mem_cons.mp hp with rfl | hp
      · exact hd _ (List.mem_cons_self _ _)
      · exact ih (fun q hq => hd q (List.mem_cons_of_mem _ hq)) p hp

theorem lookupD_eq_some_of_mem {d : List (PCKey × ContainerRow)} {k : PCKey}
    {e : ContainerRow} (hnd : (d.map Prod.fst).Nodup) (hmem : (k, e) ∈ d) :
    lookupD d k = some e := by
  induction d with
  | nil => cases hmem
  | cons p rest ih =>
    rcases p with ⟨kp, ep⟩
    rcases List.nodup_cons.mp hnd with ⟨hk, hrest⟩
    rw [lookupD_cons]
    rcases List.mem_cons.mp hmem with h | h
    · rcases h with ⟨h1, h2⟩
      simp
    · by_cases h1 : kp = k
      · subst h1
        exact absurd (List.mem_map_of_mem Prod.fst h) hk
      · simp only [h1, if_false]
        exact ih hrest h

theorem mem_of_lookupD_eq_some {d : List (PCKey × ContainerRow)} {k : PCKey}
    {e : ContainerRow} (h : lookupD d k = some e) : (k, e) ∈ d := by
  induction d with
  | nil => simp [lookupD_nil] at h
  | cons p rest ih =>
    rw [lookupD_cons] at h
    by_cases h1 : p.1 = k
    · rw [if_pos h1] at h
      rcases p with ⟨kp, ep⟩
      cases h1
      cases Option.some.inj h
      exact List.mem_cons_self _ _
    · rw [if_neg h1] at h
      exact List.mem_cons_of_mem _ (ih h)

theorem mem_snd_iff_lookupD {d : List (PCKey × ContainerRow)} {e : ContainerRow}
    (hnd : (d.map Prod.fst).Nodup) :
    e ∈ d.map Prod.snd ↔ ∃ k, lookupD d k = some e := by
  constructor
  · intro h
    rcases List.mem_map.mp h with ⟨⟨k, e0⟩, hmem, he⟩
    cases he
    exact ⟨k, lookupD_eq_some_of_mem hnd hmem⟩
  · rintro ⟨k, hk⟩
    exact List.mem_map_of_mem Prod.snd (mem_of_lookupD_eq_some hk)

/-! ### Last-write-wins characterisation of the two passes. -/

theorem cpuStep_eq_stepOf (load : String) : cpuStep load = stepOf gCpu load := rfl

theorem memStep_eq_stepOf (load : String) : memStep load = stepOf gMem load := rfl

theorem gCpu_collapse (v1 v2 : ℚ) (e : ContainerRow) : gCpu v2 (gCpu v1 e) = gCpu v2 e := by
  cases e; rfl

theorem gMem_collapse (v1 v2 : ℚ) (e : ContainerRow) : gMem v2 (gMem v1 e) = gMem v2 e := by
  cases e; rfl

theorem lastVal_append_singleton (load : String) (xs : List (String × String × TSPoint))
    (x : String × String × TSPoint) (k : PCKey) :
    lastVal load (xs ++ [x]) k =
      if ((load, x.1, x.2.1, x.2.2.timestamp) : PCKey) = k then some x.2.2.value
      else lastVal load xs k := by
  unfold lastVal
  rw [List.reverse_append]
  by_cases h : ((load, x.1, x.2.1, x.2.2.timestamp) : PCKey) = k
  · simp [List.find?_cons_of_pos, h]
  · simp [List.find?_cons_of_neg, h]

theorem lookupD_foldl_stepOf (g : ℚ → ContainerRow → ContainerRow)
    (hg : ∀ v1 v2 e, g v2 (g v1 e) = g v2 e) (load : String)
    (items : List (String × String × TSPoint)) :
    ∀ (d : List (PCKey × ContainerRow)) (k : PCKey),
    lookupD (items.foldl (stepOf g load) d) k =
      match lastVal load items k with
      | none => lookupD d k
      | some v => some (g v ((lookupD d k).getD (initK k))) := by
  induction items using List.reverseRecOn with
  | nil => intro d k; simp [lastVal]
  | append_singleton xs x ih =>
    intro d k
    rw [List.foldl_append, List.foldl_cons, List.foldl_nil, lastVal_append_singleton]
    show lookupD (updEntry (load, x.1, x.2.1, x.2.2.timestamp)
      (initEntry load x.1 x.2.1 x.2.2.timestamp) (g x.2.2.value)
      (xs.foldl (stepOf g load) d)) k = _
    rw [lookupD_updEntry]
    by_cases hk : k = (load, x.1, x.2.1, x.2.2.timestamp)
    · subst hk
      rw [if_pos rfl, if_pos rfl, ih]
      have hinit : initEntry load x.1 x.2.1 x.2.2.timestamp = initK (load, x.1, x.2.1, x.2.2.timestamp) := rfl
      rw [hinit]
      cases h2 : lastVal load xs (load, x.1, x.2.1, x.2.2.timestamp) with
      | none => simp
      | some v => simp [hg]
    · rw [if_neg hk, if_neg (fun hh => hk hh.symm), ih]

theorem lookupD_cpuDict (r : TestResult) (pc : PerContainer) (k : PCKey) :
    lookupD (cpuDict r pc) k =
      match lastVal (loadNameOf r) (seriesItems pc.cpu_cores) k with
      | none => none
      | some v => some (gCpu v (initK k)) := by
  show lookupD ((seriesItems pc.cpu_cores).foldl (cpuStep (loadNameOf r)) []) k = _
  rw [cpuStep_eq_stepOf, lookupD_foldl_stepOf gCpu gCpu_collapse]
  cases lastVal (loadNameOf r) (seriesItems pc.cpu_cores) k with
  | none => rfl
  | some v => rfl

theorem lookupD_pcDict (r : TestResult) (pc : PerContainer) (k : PCKey) :
    lookupD (pcDict r pc) k =
      match lastVal (loadNameOf r) (seriesItems pc.memory_gb) k with
      | none => lookupD (cpuDict r pc) k
      | some v => some (gMem v ((lookupD (cpuDict r pc) k).getD (initK k))) := by
  show lookupD ((seriesItems pc.memory_gb).foldl (memStep (loadNameOf r)) (cpuDict r pc)) k = _
  rw [memStep_eq_stepOf, lookupD_foldl_stepOf gMem gMem_collapse]

theorem keys_nodup_foldl_stepOf (g : ℚ → ContainerRow → ContainerRow) (load : String)
    (items : List (String × String × TSPoint)) (d : List (PCKey × ContainerRow))
    (hd : (d.map Prod.fst).Nodup) :
    (((items.foldl (stepOf g load) d)).map Prod.fst).Nodup := by
  refine foldl_inv (fun d => (d.map Prod.fst).Nodup) ?_ items d hd
  intro d x hnd
  exact keys_nodup_updEntry hnd

theorem keys_nodup_pcDict (r : TestResult) (pc : PerContainer) :
    ((pcDict r pc).map Prod.fst).Nodup := by
  show ((((seriesItems pc.memory_gb).foldl (memStep (loadNameOf r)) (cpuDict r pc))).map
    Prod.fst).Nodup
  rw [memStep_eq_stepOf]
  refine keys_nodup_foldl_stepOf _ _ _ _ ?_
  show ((((seriesItems pc.cpu_cores).foldl (cpuStep (loadNameOf r)) [])).map Prod.fst).Nodup
  rw [cpuStep_eq_stepOf]
  exact keys_nodup_foldl_stepOf _ _ _ _ (by simp)

theorem pairs_pred_foldl_stepOf {P : PCKey × ContainerRow → Prop}
    (g : ℚ → ContainerRow → ContainerRow) (load : String)
    (hupd : ∀ v k e, P (k, e) → P (k, g v e))
    (hinit : ∀ v (cn pn : String) (ts : Int),
      P ((load, cn, pn, ts), g v (initEntry load cn pn ts)))
    (items : List (String × String × TSPoint)) (d : List (PCKey × ContainerRow))
    (hd : ∀ p ∈ d, P p) :
    ∀ p ∈ items.foldl (stepOf g load) d, P p := by
  refine foldl_inv (fun d => ∀ p ∈ d, P p) ?_ items d hd
  intro d x hP
  unfold stepOf
  exact pairs_pred_updEntry hP (fun e he => hupd _ _ _ he) (hinit _ _ _ _)

/-- Every pair of `pcDict` stores an entry whose identification fields
agree with its key. -/
theorem pcDict_key_consistent (r : TestResult) (pc : PerContainer) :
    ∀ p ∈ pcDict r pc, rowKey p.2 = p.1 := by
  have hcpu : ∀ p ∈ cpuDict r pc, rowKey p.2 = p.1 := by
    show ∀ p ∈ (seriesItems pc.cpu_cores).foldl (cpuStep (loadNameOf r)) [], rowKey p.2 = p.1
    rw [cpuStep_eq_stepOf]
    refine pairs_pred_foldl_stepOf gCpu (loadNameOf r) ?_ ?_ _ _ (by simp)
    · intro v k e he
      cases e; cases k; exact he
    · intro v cn pn ts; rfl
  show ∀ p ∈ (seriesItems pc.memory_gb).foldl (memStep (loadNameOf r)) (cpuDict r pc),
    rowKey p.2 = p.1
  rw [memStep_eq_stepOf]
  refine pairs_pred_foldl_stepOf gMem (loadNameOf r) ?_ ?_ _ _ hcpu
  · intro v k e he
    cases e; cases k; exact he
  · intro v cn pn ts; rfl

/-- Every entry of `pcDict` carries the document's load name. -/
theorem pcDict_load (r : TestResult) (pc : PerContainer) :
    ∀ p ∈ pcDict r pc, p.2.load_name = loadNameOf r := by
  have hcpu : ∀ p ∈ cpuDict r pc, p.2.load_name = loadNameOf r := by
    show ∀ p ∈ (seriesItems pc.cpu_cores).foldl (cpuStep (loadNameOf r)) [], _
    rw [cpuStep_eq_stepOf]
    refine pairs_pred_foldl_stepOf gCpu (loadNameOf r) ?_ ?_ _ _ (by simp)
    · intro v k e he; cases e; exact he
    · intro v cn pn ts; rfl
  show ∀ p ∈ (seriesItems pc.memory_gb).foldl (memStep (loadNameOf r)) (cpuDict r pc), _
  rw [memStep_eq_stepOf]
  refine pairs_pred_foldl_stepOf gMem (loadNameOf r) ?_ ?_ _ _ hcpu
  · intro v k e he; cases e; exact he
  · intro v cn pn ts; rfl

/-! ### Comparison functions: totality and transitivity. -/

theorem summaryLe_total (a b : SummaryRow) : summaryLe a b = true ∨ summaryLe b a = true := by
  unfold summaryLe
  simp only [decide_eq_true_eq]
  exact le_total a.mb_per_sec b.mb_per_sec

theorem summaryLe_trans (a b c : SummaryRow) (h1 : summaryLe a b = true)
    (h2 : summaryLe b c = true) : summaryLe a c = true := by
  unfold summaryLe at h1 h2 ⊢
  simp only [decide_eq_true_eq] at h1 h2 ⊢
  exact le_trans h1 h2

theorem tsLe_total (a b : TSRow) : tsLe a b = true ∨ tsLe b a = true := by
  unfold tsLe
  simp only [decide_eq_true_eq]
  rcases lt_trichotomy a.load_name b.load_name with h | h | h
  · exact Or.inl (Or.inl h)
  · rcases le_total a.timestamp b.timestamp with h2 | h2
    · exact Or.inl (Or.inr ⟨h, h2⟩)
    · exact Or.inr (Or.inr ⟨h.symm, h2⟩)
  · exact Or.inr (Or.inl h)

theorem tsLe_trans (a b c : TSRow) (h1 : tsLe a b = true) (h2 : tsLe b c = true) :
    tsLe a c = true := by
  unfold tsLe at h1 h2 ⊢
  simp only [decide_eq_true_eq] at h1 h2 ⊢
  rcases h1 with h1 | ⟨h1e, h1t⟩
  · rcases h2 with h2 | ⟨h2e, _⟩
    · exact Or.inl (lt_trans h1 h2)
    · exact Or.inl (h2e ▸ h1)
  · rcases h2 with h2 | ⟨h2e, h2t⟩
    · exact Or.inl (h1e ▸ h2)
    · exact Or.inr ⟨h1e.trans h2e, le_trans h1t h2t⟩

theorem pcLe_total (a b : ContainerRow) : pcLe a b = true ∨ pcLe b a = true := by
  unfold pcLe
  simp only [decide_eq_true_eq]
  rcases lt_trichotomy a.load_name b.load_name with h | h | h
  · exact Or.inl (Or.inl h)
  · rcases lt_trichotomy a.container b.container with h2 | h2 | h2
    · exact Or.inl (Or.inr ⟨h, Or.inl h2⟩)
    · rcases le_total a.timestamp b.timestamp with h3 | h3
      · exact Or.inl (Or.inr ⟨h, Or.inr ⟨h2, h3⟩⟩)
      · exact Or.inr (Or.inr ⟨h.symm, Or.inr ⟨h2.symm, h3⟩⟩)
    · exact Or.inr (Or.inr ⟨h.symm, Or.inl h2⟩)
  · exact Or.inr (Or.inl h)

theorem pcLe_trans (a b c : ContainerRow) (h1 : pcLe a b = true) (h2 : pcLe b c = true) :
    pcLe a c = true := by
  unfold pcLe at h1 h2 ⊢
  simp only [decide_eq_true_eq] at h1 h2 ⊢
  rcases h1 with h1 | ⟨h1e, h1r⟩
  · rcases h2 with h2 | ⟨h2e, _⟩
    · exact Or.inl (lt_trans h1 h2)
    · exact Or.inl (h2e ▸ h1)
  · rcases h2 with h2 | ⟨h2e, h2r⟩
    · exact Or.inl (h1e ▸ h2)
    · refine Or.inr ⟨h1e.trans h2e, ?_⟩
      rcases h1r with h1c | ⟨h1c, h1t⟩
      · rcases h2r with h2c | ⟨h2c, _⟩
        · exact Or.inl (lt_trans h1c h2c)
        · exact Or.inl (h2c ▸ h1c)
      · rcases h2r with h2c | ⟨h2c, h2t⟩
        · exact Or.inl (h1c ▸ h2c)
        · exact Or.inr ⟨h1c.trans h2c, le_trans h1t h2t⟩

/-! ### Rounding. -/

theorem round1_zero : round1 0 = 0 := by
  simp [round1]

theorem abs_round1_sub (x : ℚ) : |round1 x - x| ≤ 1 / 20 := by
  unfold round1
  have h := abs_sub_round (x * 10)
  rw [abs_sub_comm] at h
  have heq : ((round (x * 10) : ℤ) : ℚ) / 10 - x = (((round (x * 10) : ℤ) : ℚ) - x * 10) / 10 := by
    ring
  rw [heq, abs_div]
  have h10 : |(10 : ℚ)| = 10 := by norm_num
  rw [h10]
  linarith

/-! ### Membership in the three tables. -/

theorem mem_sortLe {le : α → α → Bool} {l : List α} {z : α} :
    z ∈ sortLe le l ↔ z ∈ l :=
  (sortLe_perm le l).mem_iff

theorem mem_results_to_dataframe {results : List TestResult} {row : SummaryRow} :
    row ∈ results_to_dataframe results ↔ ∃ r ∈ results, mkSummaryRow r = row := by
  unfold results_to_dataframe summaryRows
  rw [mem_sortLe, List.mem_map]

theorem mem_tsDocRows {r : TestResult} {x : TSRow} (h : x ∈ tsDocRows r) :
    ∃ t, r.timeseries = some t ∧ t.cpu_cores ≠ [] ∧ ∃ ts ∈ dkeys t.cpu_cores,
      x = tsRowAt (loadNameOf r) ((r.config.bind Config.target_qps).getD 0) t ts := by
  cases ht : r.timeseries with
  | none => simp only [tsDocRows, ht] at h; cases h
  | some t =>
    simp only [tsDocRows, ht] at h
    by_cases hc : t.cpu_cores = []
    · rw [if_pos hc] at h; cases h
    · rw [if_neg hc] at h
      rcases List.mem_map.mp h with ⟨ts, hts, hx⟩
      exact ⟨t, rfl, hc, ts, hts, hx.symm⟩

theorem mem_pcDocRows {r : TestResult} {e : ContainerRow} (h : e ∈ pcDocRows r) :
    ∃ pc, r.per_container = some pc ∧ e ∈ (pcDict r pc).map Prod.snd := by
  cases hpc : r.per_container with
  | none => simp only [pcDocRows, hpc] at h; cases h
  | some pc =>
    simp only [pcDocRows, hpc] at h
    exact ⟨pc, rfl, h⟩

/-- Every entry of the per-container dict keeps
`cpu_millicores = cpu_cores * 1000`. -/
theorem pcDict_millicores (r : TestResult) (pc : PerContainer) :
    ∀ p ∈ pcDict r pc, p.2.cpu_millicores = p.2.cpu_cores * 1000 := by
  have hcpu : ∀ p ∈ cpuDict r pc, p.2.cpu_millicores = p.2.cpu_cores * 1000 := by
    show ∀ p ∈ (seriesItems pc.cpu_cores).foldl (cpuStep (loadNameOf r)) [], _
    rw [cpuStep_eq_stepOf]
    refine pairs_pred_foldl_stepOf gCpu (loadNameOf r) ?_ ?_ _ _ (by simp)
    · intro v k e he; rfl
    · intro v cn pn ts; rfl
  show ∀ p ∈ (seriesItems pc.memory_gb).foldl (memStep (loadNameOf r)) (cpuDict r pc), _
  rw [memStep_eq_stepOf]
  refine pairs_pred_foldl_stepOf gMem (loadNameOf r) ?_ ?_ _ _ hcpu
  · intro v k e he; cases e; exact he
  · intro v cn pn ts
    show (0 : ℚ) = 0 * 1000
    norm_num

/-! ### The derived minute column. -/

theorem groupMinTs_addMinute (pre : List TSRow) (load : String) :
    groupMinTs (addMinute pre) load = minTsLoad pre load := by
  unfold groupMinTs addMinute minTsLoad
  rw [List.filter_map, List.map_map]
  rfl

theorem groupMinTsLC_addMinutePC (pre : List ContainerRow) (load cn : String) :
    groupMinTsLC (addMinutePC pre) load cn = minTsLC pre load cn := by
  unfold groupMinTsLC addMinutePC minTsLC
  rw [List.filter_map, List.map_map]
  rfl

theorem mem_addMinute {pre : List TSRow} {row : TSRowM} (h : row ∈ addMinute pre) :
    ∃ x ∈ pre, row.toTSRow = x ∧
      row.minute = (x.timestamp - minTsLoad pre x.load_name) / 60 + 1 := by
  unfold addMinute at h
  rcases List.mem_map.mp h with ⟨x, hx, rfl⟩
  exact ⟨x, hx, rfl, rfl⟩

theorem mem_addMinutePC {pre : List ContainerRow} {row : ContainerRowM}
    (h : row ∈ addMinutePC pre) :
    ∃ x ∈ pre, row.toContainerRow = x ∧
      row.minute = (x.timestamp - minTsLC pre x.load_name x.container) / 60 + 1 := by
  unfold addMinutePC at h
  rcases List.mem_map.mp h with ⟨x, hx, rfl⟩
  exact ⟨x, hx, rfl, rfl⟩

theorem minTsLoad_le {pre : List TSRow} {x : TSRow} (hx : x ∈ pre) :
    minTsLoad pre x.load_name ≤ x.timestamp := by
  apply minList_le
  exact List.mem_map_of_mem _ (List.mem_filter.mpr ⟨hx, by simp⟩)

theorem minTsLC_le {pre : List ContainerRow} {x : ContainerRow} (hx : x ∈ pre) :
    minTsLC pre x.load_name x.container ≤ x.timestamp := by
  apply minList_le
  exact List.mem_map_of_mem _ (List.mem_filter.mpr ⟨hx, by simp⟩)

theorem minTsLoad_mem {pre : List TSRow} {load : String}
    (h : ∃ x ∈ pre, x.load_name = load) :
    ∃ z ∈ pre, z.load_name = load ∧ z.timestamp = minTsLoad pre load := by
  rcases h with ⟨x, hx, hl⟩
  have hmem2 : x.timestamp ∈ (pre.filter (fun y => decide (y.load_name = load))).map
      TSRow.timestamp :=
    List.mem_map_of_mem _ (List.mem_filter.mpr ⟨hx, by simp [hl]⟩)
  have hmin := minList_mem (List.ne_nil_of_mem hmem2)
  rcases List.mem_map.mp hmin with ⟨z, hzf, hzts⟩
  rcases List.mem_filter.mp hzf with ⟨hz, hzl⟩
  exact ⟨z, hz, by simpa using hzl, hzts⟩

theorem minTsLC_mem {pre : List ContainerRow} {load cn : String}
    (h : ∃ x ∈ pre, x.load_name = load ∧ x.container = cn) :
    ∃ z ∈ pre, z.load_name = load ∧ z.container = cn ∧
      z.timestamp = minTsLC pre load cn := by
  rcases h with ⟨x, hx, hl, hc⟩
  have hmem2 : x.timestamp ∈ (pre.filter
      (fun y => decide (y.load_name = load ∧ y.container = cn))).map ContainerRow.timestamp :=
    List.mem_map_of_mem _ (List.mem_filter.mpr ⟨hx, by simp [hl, hc]⟩)
  have hmin := minList_mem (List.ne_nil_of_mem hmem2)
  rcases List.mem_map.mp hmin with ⟨z, hzf, hzts⟩
  rcases List.mem_filter.mp hzf with ⟨hz, hzl⟩
  have hzl2 : z.load_name = load ∧ z.container = cn := by simpa using hzl
  exact ⟨z, hz, hzl2.1, hzl2.2, hzts⟩

theorem addMinute_props (pre : List TSRow) :
    (∀ row ∈ addMinute pre,
      1 ≤ row.minute ∧
      row.minute = (row.timestamp - groupMinTs (addMinute pre) row.load_name) / 60 + 1 ∧
      (row.timestamp = groupMinTs (addMinute pre) row.load_name → row.minute = 1) ∧
      ∀ row2 ∈ addMinute pre, row2.load_name = row.load_name →
        row.timestamp ≤ row2.timestamp → row.minute ≤ row2.minute) ∧
    (∀ load, (∃ row ∈ addMinute pre, row.load_name = load) →
      ∃ row ∈ addMinute pre, row.load_name = load ∧ row.minute = 1) := by
  constructor
  · intro row hrow
    rcases mem_addMinute hrow with ⟨x, hx, hrx, hm⟩
    have hts : row.timestamp = x.timestamp := by rw [hrx]
    have hload : row.load_name = x.load_name := by rw [hrx]
    have hle : minTsLoad pre x.load_name ≤ x.timestamp := minTsLoad_le hx
    refine ⟨?_, ?_, ?_, ?_⟩
    · omega
    · rw [hm, groupMinTs_addMinute, hts, hload]
    · intro heq
      rw [groupMinTs_addMinute, hts, hload] at heq
      omega
    · intro row2 hrow2 hl2 hts2
      rcases mem_addMinute hrow2 with ⟨y, hy, hry, hm2⟩
      have hts2y : row2.timestamp = y.timestamp := by rw [hry]
      have hload2 : row2.load_name = y.load_name := by rw [hry]
      have hyx : y.load_name = x.load_name := by rw [← hload2, hl2, hload]
      rw [hyx] at hm2
      rw [hts, hts2y] at hts2
      omega
  · rintro load ⟨row, hrow, hl⟩
    rcases mem_addMinute hrow with ⟨x, hx, hrx, _⟩
    have hxl : x.load_name = load := by rw [← hrx]; exact hl
    rcases minTsLoad_mem ⟨x, hx, hxl⟩ with ⟨z, hz, hzl, hzts⟩
    refine ⟨⟨z, (z.timestamp - minTsLoad pre z.load_name) / 60 + 1⟩, ?_, hzl, ?_⟩
    · unfold addMinute
      exact List.mem_map_of_mem _ hz
    · show (z.timestamp - minTsLoad pre z.load_name) / 60 + 1 = 1
      rw [hzl]
      omega

theorem addMinutePC_props (pre : List ContainerRow) :
    (∀ row ∈ addMinutePC pre,
      1 ≤ row.minute ∧
      row.minute = (row.timestamp -
        groupMinTsLC (addMinutePC pre) row.load_name row.container) / 60 + 1 ∧
      (row.timestamp = groupMinTsLC (addMinutePC pre) row.load_name row.container →
        row.minute = 1) ∧
      ∀ row2 ∈ addMinutePC pre, row2.load_name = row.load_name →
        row2.container = row.container → row.timestamp ≤ row2.timestamp →
        row.minute ≤ row2.minute) ∧
    (∀ load cn, (∃ row ∈ addMinutePC pre, row.load_name = load ∧ row.container = cn) →
      ∃ row ∈ addMinutePC pre, row.load_name = load ∧ row.container = cn ∧
        row.minute = 1) := by
  constructor
  · intro row hrow
    rcases mem_addMinutePC hrow with ⟨x, hx, hrx, hm⟩
    have hts : row.timestamp = x.timestamp := by rw [hrx]
    have hload : row.load_name = x.load_name := by rw [hrx]
    have hcn : row.container = x.container := by rw [hrx]
    have hle : minTsLC pre x.load_name x.container ≤ x.timestamp := minTsLC_le hx
    refine ⟨?_, ?_, ?_, ?_⟩
    · omega
    · rw [hm, groupMinTsLC_addMinutePC, hts, hload, hcn]
    · intro heq
      rw [groupMinTsLC_addMinutePC, hts, hload, hcn] at heq
      omega
    · intro row2 hrow2 hl2 hc2 hts2
      rcases mem_addMinutePC hrow2 with ⟨y, hy, hry, hm2⟩
      have hts2y : row2.timestamp = y.timestamp := by rw [hry]
      have hload2 : row2.load_name = y.load_name := by rw [hry]
      have hcny : row2.container = y.container := by rw [hry]
      have hyx : y.load_name = x.load_name := by rw [← hload2, hl2, hload]
      have hyxc : y.container = x.container := by rw [← hcny, hc2, hcn]
      rw [hyx, hyxc] at hm2
      rw [hts, hts2y] at hts2
      omega
  · rintro load cn ⟨row, hrow, hl, hc⟩
    rcases mem_addMinutePC hrow with ⟨x, hx, hrx, _⟩
    have hxl : x.load_name = load := by rw [← hrx]; exact hl
    have hxc : x.container = cn := by rw [← hrx]; exact hc
    rcases minTsLC_mem ⟨x, hx, hxl, hxc⟩ with ⟨z, hz, hzl, hzc, hzts⟩
    refine ⟨⟨z, (z.timestamp - minTsLC pre z.load_name z.container) / 60 + 1⟩, ?_, hzl, hzc, ?_⟩
    · unfold addMinutePC
      exact List.mem_map_of_mem _ hz
    · show (z.timestamp - minTsLC pre z.load_name z.container) / 60 + 1 = 1
      rw [hzl, hzc]
      omega

/-! ## Claim theorems -/

/-- C7: in every row of the summary, time-series and per-container
tables, each millicore column is exactly 1000 times its corresponding
cores column (for the summary table this covers the avg, max, min,
sustained and recommended CPU columns). -/
theorem C7_millicores (results : List TestResult) :
    (∀ row ∈ results_to_dataframe results,
      row.cpu_millicores = row.cpu_cores * 1000 ∧
      row.max_cpu_millicores = row.max_cpu_cores * 1000 ∧
      row.min_cpu_millicores = row.min_cpu_cores * 1000 ∧
      row.sustained_cpu_millicores = row.sustained_cpu * 1000 ∧
      row.recommended_cpu_millicores = row.recommended_cpu * 1000) ∧
    (∀ row ∈ extract_timeseries_data results,
      row.cpu_millicores = row.cpu_cores * 1000) ∧
    (∀ row ∈ extract_per_container_data results,
      row.cpu_millicores = row.cpu_cores * 1000) := by
  refine ⟨?_, ?_, ?_⟩
  · intro row hrow
    rcases mem_results_to_dataframe.mp hrow with ⟨r, _, rfl⟩
    exact ⟨rfl, rfl, rfl, rfl, rfl⟩
  · intro row hrow
    unfold extract_timeseries_data addMinute at hrow
    rcases List.mem_map.mp hrow with ⟨x, hx, rfl⟩
    rcases List.mem_flatMap.mp (mem_sortLe.mp hx) with ⟨r, _, hxr⟩
    rcases mem_tsDocRows hxr with ⟨t, _, _, ts, _, rfl⟩
    rfl
  · intro row hrow
    unfold extract_per_container_data addMinutePC at hrow
    rcases List.mem_map.mp hrow with ⟨e, he, rfl⟩
    rcases List.mem_flatMap.mp (mem_sortLe.mp he) with ⟨r, _, her⟩
    rcases mem_pcDocRows her with ⟨pc, _, hmem⟩
    rcases List.mem_map.mp hmem with ⟨p, hp, rfl⟩
    exact pcDict_millicores r pc p hp

/-- C7 witness: the relation evaluated on concrete documents in all
three tables. -/
theorem C7_millicores_witness :
    (mkSummaryRow docSmall).cpu_millicores = (mkSummaryRow docSmall).cpu_cores * 1000 ∧
    (mkSummaryRow docSmall).sustained_cpu_millicores =
      (mkSummaryRow docSmall).sustained_cpu * 1000 := by
  have h := (C7_millicores [docSmall]).1 (mkSummaryRow docSmall)
    (mem_results_to_dataframe.mpr ⟨docSmall, List.mem_singleton.mpr rfl, rfl⟩)
  exact ⟨h.1, h.2.2.2.1⟩

/-- C6: in every summary row the derived efficiency column is
`round1 (actual / target * 100)` when the target throughput is
positive (hence within `1/20` of the unrounded ratio), and `0` when the
target throughput is zero. -/
theorem C6_efficiency (results : List TestResult) :
    ∀ row ∈ results_to_dataframe results,
      (row.mb_per_sec > 0 →
        efficiencyCol row = round1 (row.mb_per_sec_actual / row.mb_per_sec * 100) ∧
        |efficiencyCol row - row.mb_per_sec_actual / row.mb_per_sec * 100| ≤ 1 / 20) ∧
      (row.mb_per_sec = 0 → efficiencyCol row = 0) := by
  intro row _
  constructor
  · intro hpos
    unfold efficiencyCol
    rw [if_pos hpos]
    exact ⟨rfl, abs_round1_sub _⟩
  · intro h0
    unfold efficiencyCol
    rw [if_neg (by rw [h0]; exact lt_irrefl 0), round1_zero]

/-- C6 witness: `docSmall` has target 10 MB/s, measured 10 MB/s, so the
efficiency column is exactly 100. -/
theorem C6_efficiency_witness :
    (mkSummaryRow docSmall).mb_per_sec > 0 ∧
    efficiencyCol (mkSummaryRow docSmall) =
      round1 ((mkSummaryRow docSmall).mb_per_sec_actual /
        (mkSummaryRow docSmall).mb_per_sec * 100) ∧
    efficiencyCol (mkSummaryRow docSmall) = 100 := by
  have hpos : (mkSummaryRow docSmall).mb_per_sec > 0 := by
    norm_num [mkSummaryRow, docSmall]
  have h := (C6_efficiency [docSmall] (mkSummaryRow docSmall)
    (mem_results_to_dataframe.mpr ⟨docSmall, List.mem_singleton.mpr rfl, rfl⟩)).1 hpos
  refine ⟨hpos, h.1, ?_⟩
  norm_num [efficiencyCol, mkSummaryRow, docSmall, round1, round_eq]

/-- C8 counterexample: contrary to the claim, the code does NOT leave
the QPS efficiency undefined when the target QPS is zero: line 1683
computes `qps_efficiency = 0` there, exactly the value the throughput
efficiency takes for a zero target throughput - at the value level the
two zero-target cases are unified, not asymmetric. -/
theorem C8_counterexample :
    (mkSummaryRow docZero).target_qps = 0 ∧
    qps_efficiencyCol (mkSummaryRow docZero) = 0 ∧
    efficiencyCol (mkSummaryRow docZero) = 0 ∧
    qps_efficiencyCol (mkSummaryRow docZero) = efficiencyCol (mkSummaryRow docZero) := by
  refine ⟨rfl, ?_, ?_, ?_⟩ <;>
    norm_num [qps_efficiencyCol, efficiencyCol, mkSummaryRow, docZero, round1, round_eq]

/-- C8 amended: with a zero target QPS the computed `qps_efficiency`
column is `0` (unified with the zero-target throughput efficiency); the
asymmetry is confined to rendering: the `Actual QPS` cell then gets the
empty style class and `Target QPS` renders as `'N/A'`, while the
throughput-efficiency cell always gets a non-empty class (and its value
is always rendered). -/
theorem C8_qps_rendering (results : List TestResult) (fmt1 : ℚ → String) :
    ∀ row ∈ results_to_dataframe results,
      (row.target_qps = 0 →
        qps_efficiencyCol row = 0 ∧ qpsEffClass row = "" ∧
        targetQpsStr fmt1 row = "N/A") ∧
      (row.mb_per_sec = 0 → efficiencyCol row = 0) ∧
      effClass row ≠ "" := by
  intro row _
  refine ⟨?_, ?_, ?_⟩
  · intro h0
    refine ⟨?_, ?_, ?_⟩
    · unfold qps_efficiencyCol
      rw [if_neg (by rw [h0]; exact lt_irrefl 0), round1_zero]
    · unfold qpsEffClass
      rw [if_neg (by rw [h0]; exact lt_irrefl 0)]
    · unfold targetQpsStr
      rw [if_neg (by rw [h0]; exact lt_irrefl 0)]
  · intro h0
    unfold efficiencyCol
    rw [if_neg (by rw [h0]; exact lt_irrefl 0), round1_zero]
  · unfold effClass
    split
    · decide
    · split
      · decide
      · decide

/-- C8 witness: the rendering facts evaluated on the zero-target
document. -/
theorem C8_qps_rendering_witness :
    qps_efficiencyCol (mkSummaryRow docZero) = 0 ∧
    qpsEffClass (mkSummaryRow docZero) = "" ∧
    targetQpsStr (fun _ => "1.0") (mkSummaryRow docZero) = "N/A" :=
  (C8_qps_rendering [docZero] (fun _ => "1.0") (mkSummaryRow docZero)
    (mem_results_to_dataframe.mpr ⟨docZero, List.mem_singleton.mpr rfl, rfl⟩)).1 rfl

/-- C9: summary-row extraction is a safe nested lookup: a document
whose `query_results` path is absent yields `actual_qps = 0` and
`avg_spans_returned = 0`, and a document with no `metrics` block at all
yields the fully-defaulted row (every metric column zero, every column
present) - extraction is total and never fails. -/
theorem C9_safe_defaults (r : TestResult) :
    (r.metrics.bind Metrics.query_results = none →
      (mkSummaryRow r).actual_qps = 0 ∧ (mkSummaryRow r).avg_spans_returned = 0) ∧
    (r.metrics = none →
      mkSummaryRow r =
        { load_name := r.load_name.getD "unknown"
          mb_per_sec := (r.config.bind Config.mb_per_sec).getD 0
          mb_per_sec_actual := 0, gb_per_day := 0, bytes_per_sec := 0
          p50_ms := 0, p90_ms := 0, p99_ms := 0, avg_latency_ms := 0
          cpu_cores := 0, cpu_millicores := 0
          max_cpu_cores := 0, max_cpu_millicores := 0
          min_cpu_cores := 0, min_cpu_millicores := 0
          avg_memory_gb := 0, memory_gb := 0, max_memory_gb := 0, min_memory_gb := 0
          sustained_cpu := 0, sustained_cpu_millicores := 0, peak_memory_gb := 0
          recommended_cpu := 0, recommended_cpu_millicores := 0, recommended_memory_gb := 0
          spans_per_sec := 0, error_rate := 0, dropped_spans := 0, discarded_spans := 0
          avg_spans_returned := 0, actual_qps := 0
          target_qps := (r.config.bind Config.target_qps).getD 0 }) := by
  constructor
  · intro h
    constructor <;> simp [mkSummaryRow, h]
  · intro h
    simp [mkSummaryRow, h]

/-- C9 witness: a concrete document with no `metrics` block. -/
theorem C9_safe_defaults_witness :
    docSmall2.metrics.bind Metrics.query_results = none ∧
    (mkSummaryRow docSmall2).actual_qps = 0 ∧
    (mkSummaryRow docSmall2).avg_spans_returned = 0 :=
  ⟨rfl, (C9_safe_defaults docSmall2).1 rfl⟩

/-- C5: an unparsable file is skipped (the run succeeds with one
summary row per remaining valid file), while zero successfully parsed
documents - whether because nothing parsed or because nothing passed
the filename filter - make `load_test_results` exit with an error, as
does a missing `raw/` directory. -/
theorem C5_load_failures (fnmatchFn : String → String → Bool) (fileFilter : String)
    (files : List RawFile) :
    (validResults fnmatchFn fileFilter files ≠ [] →
      load_test_results fnmatchFn fileFilter true files =
        Except.ok (validResults fnmatchFn fileFilter files) ∧
      (results_to_dataframe (validResults fnmatchFn fileFilter files)).length =
        (validResults fnmatchFn fileFilter files).length) ∧
    (validResults fnmatchFn fileFilter files = [] →
      ∃ msg, load_test_results fnmatchFn fileFilter true files = Except.error msg) ∧
    (∃ msg, load_test_results fnmatchFn fileFilter false files = Except.error msg) := by
  refine ⟨?_, ?_, ?_⟩
  · intro h
    constructor
    · show (if (true = false) then _ else _) = _
      rw [if_neg (by simp)]
      show (if validResults fnmatchFn fileFilter files = [] then _ else _) = _
      rw [if_neg h]
      rfl
    · unfold results_to_dataframe summaryRows
      rw [(sortLe_perm _ _).length_eq, List.length_map]
  · intro h
    refine ⟨if fileFilter = "" then "Error: No valid JSON files found"
      else "Error: No valid JSON files found matching filter", ?_⟩
    show (if (true = false) then _ else _) = _
    rw [if_neg (by simp)]
    show (if validResults fnmatchFn fileFilter files = [] then _ else _) = _
    rw [if_pos h]
  · exact ⟨"Error: Raw results directory not found", rfl⟩

/-- C5 witness: three files, one unparsable; the run succeeds with the
two valid documents, the summary table has exactly two rows, and one
warning names the bad file. -/
theorem C5_load_failures_witness :
    load_test_results (fun _ _ => true) "" true
      [⟨"a.json", some docSmall⟩, ⟨"bad.json", none⟩, ⟨"c.json", some docSmall2⟩] =
      Except.ok [docSmall, docSmall2] ∧
    (results_to_dataframe [docSmall, docSmall2]).length = 2 ∧
    parseWarnings (fun _ _ => true) ""
      [⟨"a.json", some docSmall⟩, ⟨"bad.json", none⟩, ⟨"c.json", some docSmall2⟩] =
      ["bad.json"] := by
  have hv : validResults (fun _ _ => true) ""
      [⟨"a.json", some docSmall⟩, ⟨"bad.json", none⟩, ⟨"c.json", some docSmall2⟩] =
      [docSmall, docSmall2] := rfl
  have h := (C5_load_failures (fun _ _ => true) ""
    [⟨"a.json", some docSmall⟩, ⟨"bad.json", none⟩, ⟨"c.json", some docSmall2⟩]).1
    (by rw [hv]; exact List.cons_ne_nil _ _)
  refine ⟨?_, ?_, rfl⟩
  · rw [h.1, hv]
  · rw [← hv]
    exact h.2

/-- C1 amended: the summary table is a reordering of the one-row-per-
document list that is ascending in `mb_per_sec` - this much holds for
every output the pandas default sort (`kind='quicksort'`, numpy
introsort) may produce, and the executable model satisfies it; the tie
order among equal targets, however, is NOT guaranteed (see the
counterexample), since numpy documents this sort kind as unstable. -/
theorem C1_summary_sorted (results : List TestResult) :
    sortValuesContract summaryLe (summaryRows results) (results_to_dataframe results) ∧
    (∀ out, sortValuesContract summaryLe (summaryRows results) out →
      out.length = results.length ∧
      out.Pairwise (fun a b => a.mb_per_sec ≤ b.mb_per_sec)) := by
  constructor
  · exact ⟨(sortLe_perm _ _).symm, sortLe_pairwise summaryLe_total summaryLe_trans _⟩
  · rintro out ⟨hperm, hsort⟩
    constructor
    · rw [← hperm.length_eq]
      unfold summaryRows
      rw [List.length_map]
    · exact hsort.imp (fun h => by simpa [summaryLe] using h)

/-- C1 witness: the contract facts evaluated on a concrete two-document
input. -/
theorem C1_summary_sorted_witness :
    (results_to_dataframe [docSmall2, docSmall3]).length = 2 ∧
    (results_to_dataframe [docSmall2, docSmall3]).Pairwise
      (fun a b => a.mb_per_sec ≤ b.mb_per_sec) := by
  have h := (C1_summary_sorted [docSmall2, docSmall3]).2
    (results_to_dataframe [docSmall2, docSmall3])
    (C1_summary_sorted [docSmall2, docSmall3]).1
  exact ⟨h.1, h.2⟩

/-- C1 counterexample: the claim additionally asserts that ties among
equal `mb_per_sec` values keep the original input order.  The code
sorts with the pandas default `kind='quicksort'` (numpy introsort),
whose contract guarantees only an ascending reordering - numpy
documents it as NOT stable, and its partition step really does swap
equal keys once the input outgrows the insertion-sort cutoff (17 equal
keys suffice).  Formally: for two equal-target documents the reversed
row order also satisfies everything the sort guarantees, so the claimed
tie order does not follow from the code. -/
theorem C1_counterexample :
    ¬(∀ out, sortValuesContract summaryLe (summaryRows [docSmall2, docSmall3]) out →
        out = summaryRows [docSmall2, docSmall3]) := by
  intro h
  have h2 := h [mkSummaryRow docSmall3, mkSummaryRow docSmall2]
    ⟨List.Perm.swap _ _ _, by decide⟩
  have h3 : mkSummaryRow docSmall3 ≠ mkSummaryRow docSmall2 := by decide
  have h4 : summaryRows [docSmall2, docSmall3] =
      [mkSummaryRow docSmall2, mkSummaryRow docSmall3] := rfl
  rw [h4] at h2
  exact h3 (List.head_eq_of_cons_eq h2)

/-- C2: a document with no time-series block or an empty CPU sub-series
contributes no time-series rows (but still exactly one summary row);
otherwise each distinct CPU timestamp yields exactly one row (the row
timestamps are exactly the deduplicated sorted CPU timestamps), and in
every row each other metric is joined by exact-timestamp lookup against
the CPU axis, defaulting to zero - without dropping the row - when that
metric has no entry at the timestamp. -/
theorem C2_timeseries_join (r : TestResult) :
    ((r.timeseries = none ∨ ∃ t, r.timeseries = some t ∧ t.cpu_cores = []) →
      tsDocRows r = []) ∧
    (summaryRows [r]).length = 1 ∧
    (∀ t, r.timeseries = some t → t.cpu_cores ≠ [] →
      ((tsDocRows r).map (fun row => row.timestamp) = dkeys t.cpu_cores ∧
       (dkeys t.cpu_cores).Nodup ∧
       ∀ row ∈ tsDocRows r,
         row.cpu_cores = dget t.cpu_cores row.timestamp ∧
         row.memory_gb = dget t.memory_gb row.timestamp ∧
         row.spans_per_sec = dget t.spans_per_second row.timestamp ∧
         row.bytes_per_sec = dget t.bytes_per_second row.timestamp ∧
         row.p50_ms = dget t.p50_latency_seconds row.timestamp * 1000 ∧
         row.p90_ms = dget t.p90_latency_seconds row.timestamp * 1000 ∧
         row.p99_ms = dget t.p99_latency_seconds row.timestamp * 1000 ∧
         row.query_failures = dget t.query_failures_per_second row.timestamp ∧
         row.dropped_spans = dget t.dropped_spans_per_second row.timestamp ∧
         row.discarded_spans = dget t.discarded_spans_per_second row.timestamp ∧
         row.avg_spans_returned = dget t.avg_spans_returned row.timestamp ∧
         row.qps = dget t.qps row.timestamp ∧
         (dhas t.memory_gb row.timestamp = false → row.memory_gb = 0))) := by
  refine ⟨?_, rfl, ?_⟩
  · rintro (h | ⟨t, ht, hc⟩)
    · simp [tsDocRows, h]
    · simp [tsDocRows, ht, hc]
  · intro t ht hc
    refine ⟨?_, dkeys_nodup _, ?_⟩
    · simp only [tsDocRows, ht, if_neg hc, List.map_map]
      exact List.map_id _ ▸ rfl
    · intro row hrow
      rcases mem_tsDocRows hrow with ⟨t2, ht2, _, ts, _, rfl⟩
      rw [ht] at ht2
      cases Option.some.inj ht2
      refine ⟨rfl, rfl, rfl, rfl, rfl, rfl, rfl, rfl, rfl, rfl, rfl, rfl, ?_⟩
      intro habs
      show dget t.memory_gb ts = 0
      exact dget_eq_zero_of_not_dhas habs

/-- C2 witness: the two-CPU-sample document with no memory series
yields exactly the two timestamps and a zero memory value. -/
theorem C2_timeseries_join_witness :
    (tsDocRows docTS).map (fun row => row.timestamp) = [1000, 1060] ∧
    tsRowAt "ts" 3 tsBlockTS 1000 ∈ tsDocRows docTS ∧
    (tsRowAt "ts" 3 tsBlockTS 1000).memory_gb = dget tsBlockTS.memory_gb 1000 ∧
    dget tsBlockTS.memory_gb 1000 = 0 := by
  have h := (C2_timeseries_join docTS).2.2 tsBlockTS rfl (List.cons_ne_nil _ _)
  have hrows : tsDocRows docTS = [tsRowAt "ts" 3 tsBlockTS 1000, tsRowAt "ts" 3 tsBlockTS 1060] :=
    rfl
  have hmem : tsRowAt "ts" 3 tsBlockTS 1000 ∈ tsDocRows docTS := by
    rw [hrows]; exact List.mem_cons_self _ _
  have hfields := h.2.2 _ hmem
  exact ⟨by rw [h.1]; rfl, hmem, hfields.2.1, hfields.2.2.2.2.2.2.2.2.2.2.2.2 rfl⟩

/-- C3: in both the time-series table (grouped by load) and the
per-container table (grouped by load and container), the derived minute
column is a positive integer, equals the truncation of
(timestamp − group minimum) / 60 plus 1, is 1 at the group minimum
timestamp, is non-decreasing with the timestamp inside a group, and
every non-empty group restarts at minute 1. -/
theorem C3_minute (results : List TestResult) :
    (∀ row ∈ extract_timeseries_data results,
      1 ≤ row.minute ∧
      row.minute =
        (row.timestamp - groupMinTs (extract_timeseries_data results) row.load_name) / 60 + 1 ∧
      (row.timestamp = groupMinTs (extract_timeseries_data results) row.load_name →
        row.minute = 1) ∧
      ∀ row2 ∈ extract_timeseries_data results, row2.load_name = row.load_name →
        row.timestamp ≤ row2.timestamp → row.minute ≤ row2.minute) ∧
    (∀ load, (∃ row ∈ extract_timeseries_data results, row.load_name = load) →
      ∃ row ∈ extract_timeseries_data results, row.load_name = load ∧ row.minute = 1) ∧
    (∀ row ∈ extract_per_container_data results,
      1 ≤ row.minute ∧
      row.minute = (row.timestamp -
        groupMinTsLC (extract_per_container_data results) row.load_name row.container) / 60 + 1 ∧
      (row.timestamp =
          groupMinTsLC (extract_per_container_data results) row.load_name row.container →
        row.minute = 1) ∧
      ∀ row2 ∈ extract_per_container_data results, row2.load_name = row.load_name →
        row2.container = row.container → row.timestamp ≤ row2.timestamp →
        row.minute ≤ row2.minute) ∧
    (∀ load cn,
      (∃ row ∈ extract_per_container_data results, row.load_name = load ∧ row.container = cn) →
      ∃ row ∈ extract_per_container_data results,
        row.load_name = load ∧ row.container = cn ∧ row.minute = 1) := by
  have h1 := addMinute_props (sortLe tsLe (results.flatMap tsDocRows))
  have h2 := addMinutePC_props (sortLe pcLe (results.flatMap pcDocRows))
  exact ⟨h1.1, h1.2, h2.1, h2.2⟩

/-- C3 witness: in the concrete two-sample table the second row (at
timestamp 1060, one minute after the group minimum 1000) has
minute 2 ≥ 1, and the group restarts at minute 1. -/
theorem C3_minute_witness :
    (⟨tsRowAt "ts" 3 tsBlockTS 1060, 2⟩ : TSRowM) ∈ extract_timeseries_data [docTS] ∧
    1 ≤ (⟨tsRowAt "ts" 3 tsBlockTS 1060, 2⟩ : TSRowM).minute ∧
    (∃ row ∈ extract_timeseries_data [docTS], row.load_name = "ts" ∧ row.minute = 1) := by
  have htsle : tsLe (tsRowAt "ts" 3 tsBlockTS 1000) (tsRowAt "ts" 3 tsBlockTS 1060) = true := by
    simp only [tsLe, decide_eq_true_eq]
    exact Or.inr ⟨rfl, show (1000 : ℤ) ≤ 1060 by norm_num⟩
  have hsort : sortLe tsLe ([docTS].flatMap tsDocRows) =
      [tsRowAt "ts" 3 tsBlockTS 1000, tsRowAt "ts" 3 tsBlockTS 1060] := by
    show sortLe tsLe [tsRowAt "ts" 3 tsBlockTS 1000, tsRowAt "ts" 3 tsBlockTS 1060] = _
    simp [sortLe, insertLe, htsle]
  have hrows : extract_timeseries_data [docTS] =
      [⟨tsRowAt "ts" 3 tsBlockTS 1000, 1⟩, ⟨tsRowAt "ts" 3 tsBlockTS 1060, 2⟩] := by
    show addMinute (sortLe tsLe ([docTS].flatMap tsDocRows)) = _
    rw [hsort]
    rfl
  have hmem : (⟨tsRowAt "ts" 3 tsBlockTS 1060, 2⟩ : TSRowM) ∈ extract_timeseries_data [docTS] := by
    rw [hrows]
    exact List.mem_cons_of_mem _ (List.mem_cons_self _ _)
  refine ⟨hmem, ((C3_minute [docTS]).1 _ hmem).1, ?_⟩
  refine (C3_minute [docTS]).2.1 "ts" ⟨⟨tsRowAt "ts" 3 tsBlockTS 1060, 2⟩, hmem, rfl⟩

/-- C10: the memory pass only writes the `memory_gb` field - an entry
the CPU pass created keeps its CPU values and identification fields
unchanged through the memory pass, and an entry first created by the
memory pass has zero CPU values. -/
theorem C10_memory_pass_frame (r : TestResult) (pc : PerContainer) (k : PCKey) :
    (∀ e, lookupD (cpuDict r pc) k = some e →
      ∃ e2, lookupD (pcDict r pc) k = some e2 ∧
        e2.cpu_cores = e.cpu_cores ∧ e2.cpu_millicores = e.cpu_millicores ∧
        e2.load_name = e.load_name ∧ e2.container = e.container ∧ e2.pod = e.pod ∧
        e2.timestamp = e.timestamp ∧ e2.datetime = e.datetime) ∧
    (lookupD (cpuDict r pc) k = none →
      ∀ e2, lookupD (pcDict r pc) k = some e2 →
        e2.cpu_cores = 0 ∧ e2.cpu_millicores = 0) := by
  have hchar := lookupD_pcDict r pc k
  constructor
  · intro e he
    cases hm : lastVal (loadNameOf r) (seriesItems pc.memory_gb) k with
    | none =>
      rw [hm] at hchar
      exact ⟨e, by rw [hchar, he], rfl, rfl, rfl, rfl, rfl, rfl, rfl⟩
    | some w =>
      rw [hm, he] at hchar
      exact ⟨gMem w e, hchar, rfl, rfl, rfl, rfl, rfl, rfl, rfl⟩
  · intro hnone e2 he2
    cases hm : lastVal (loadNameOf r) (seriesItems pc.memory_gb) k with
    | none =>
      rw [hm] at hchar
      rw [hchar, hnone] at he2
      cases he2
    | some w =>
      rw [hm, hnone] at hchar
      rw [hchar] at he2
      cases Option.some.inj he2
      exact ⟨rfl, rfl⟩

/-- C10 witness: the key created only by the memory pass of the
concrete document carries `memory_gb = 7` and zero CPU values. -/
theorem C10_memory_pass_frame_witness :
    lookupD (cpuDict docPC pcBlockPC) ("pc", "c", "p", 160) = none ∧
    lookupD (pcDict docPC pcBlockPC) ("pc", "c", "p", 160) =
      some { load_name := "pc", container := "c", pod := "p", timestamp := 160
             datetime := 160, cpu_cores := 0, cpu_millicores := 0, memory_gb := 7 } ∧
    ({ load_name := "pc", container := "c", pod := "p", timestamp := 160
       datetime := 160, cpu_cores := 0, cpu_millicores := 0,
       memory_gb := 7 } : ContainerRow).cpu_cores = 0 ∧
    ({ load_name := "pc", container := "c", pod := "p", timestamp := 160
       datetime := 160, cpu_cores := 0, cpu_millicores := 0,
       memory_gb := 7 } : ContainerRow).cpu_millicores = 0 := by
  have hnone : lookupD (cpuDict docPC pcBlockPC) ("pc", "c", "p", 160) = none := rfl
  have hsome : lookupD (pcDict docPC pcBlockPC) ("pc", "c", "p", 160) =
      some { load_name := "pc", container := "c", pod := "p", timestamp := 160
             datetime := 160, cpu_cores := 0, cpu_millicores := 0, memory_gb := 7 } := rfl
  have h := (C10_memory_pass_frame docPC pcBlockPC ("pc", "c", "p", 160)).2 hnone _ hsome
  exact ⟨hnone, hsome, h.1, h.2⟩

end GenCharts
